import Mathlib

/-!
Shallow embedding of the core logic of the petpipe repository
(src/petpipe/utils.py and src/petpipe/pet2bids.py) and proofs of the
testable properties the spec states about it.

Python keyword-argument dictionaries are modelled as association lists
`List (String × _)` looked up by first occurrence; a Python dict has
unique keys, which theorems assume through `Nodup` hypotheses where the
supply order matters.
-/

namespace Petpipe

/-- First-occurrence lookup in an association list; models the Python
membership test and subscript access on a dict represented as a
key/value list. -/
def lookupKw {α : Type} (k : String) : List (String × α) → Option α
  | [] => none
  | (k', v) :: rest => if k == k' then some v else lookupKw k rest

/-- A Python scalar value supplied as a keyword argument: the builders in
utils.py dispatch on `isinstance(v, str)` / `isinstance(v, int)`. -/
inductive KwVal : Type
  | str (s : String)
  | int (n : Int)
deriving DecidableEq

/-- Rendering of a `KwVal` inside an f-string, as the Python str conversion. -/
def KwVal.render : KwVal → String
  | .str s => s
  | .int n => toString n

/-- The list `BIDSpetName.keys` (utils.py line 42): the canonical tag order of the
PET filename builder. -/
def petKeys : List String := ["sub", "ses", "task", "trc", "rec", "run", "desc"]

/-- Method `BIDSpetName.build` (utils.py lines 45-51): emit `key-value` for each
canonical key present in the kwargs, then the fixed terminal token `pet`,
joined by underscores. The builder formats any value with an f-string,
so values are taken as already-rendered strings. -/
def BIDSpetName.build (values : List (String × String)) : String :=
  "_".intercalate
    ((petKeys.filterMap fun key =>
      (lookupKw key values).map fun v => key ++ "-" ++ v) ++ ["pet"])

/-- The list `BIDSderivativeName.ALLOWED_SUFFIXES` (utils.py line 54).
Declared in the source but never consulted. -/
def BIDSderivativeName.ALLOWED_SUFFIXES : List String :=
  ["pet", "T1w", "T1w_mask", "surf", "xfm"]

/-- The list `BIDSderivativeName.keys` (utils.py line 56). Note: `"suffix"` is not
in this list. -/
def derivKeys : List String :=
  ["sub", "ses", "hemi", "surf", "from", "to", "space", "label", "smooth",
   "pvc", "ref", "desc", "trc"]

/-- One loop body of `BIDSderivativeName.build` (utils.py lines 61-71):
the `key == "suffix"` branch appends the raw suffix unless it is
`"surf"`; otherwise `str` and `int` values emit `key-value`. The suffix
branch is unreachable because `"suffix"` is absent from `derivKeys`. -/
def derivPart (key : String) (v : KwVal) : Option String :=
  if key == "suffix" then
    match v with
    | .str s => if s ≠ "surf" then some s else none
    | .int n => some (toString n)
  else
    match v with
    | .str s => some (key ++ "-" ++ s)
    | .int n => some (key ++ "-" ++ toString n)

/-- Method `BIDSderivativeName.build` (utils.py lines 59-73). -/
def BIDSderivativeName.build (values : List (String × KwVal)) : String :=
  "_".intercalate
    (derivKeys.filterMap fun key => (lookupKw key values).bind fun v => derivPart key v)

/-- The list `BIDSName.ALLOWED_SUFFIXES` (utils.py line 76): the fixed enumerated
set of anatomical imaging-contrast names. -/
def BIDSName.ALLOWED_SUFFIXES : List String :=
  ["FLAIR", "PDT2", "PDw", "T1w", "T2starw", "T2w", "UNIT1", "angio",
   "inplaneT1", "inplaneT2"]

/-- The list `BIDSName.keys` (utils.py line 78): the suffix is the last key. -/
def bidsNameKeys : List String :=
  ["sub", "ses", "task", "acq", "ce", "rec", "run", "echo", "part",
   "chunk", "suffix"]

/-- Membership test of a Python value in `ALLOWED_SUFFIXES` (a list of
strings): an `int` value never equals a string. -/
def KwVal.isAllowedSuffix : KwVal → Bool
  | .str s => BIDSName.ALLOWED_SUFFIXES.contains s
  | .int _ => false

/-- Constructor init of BIDSName (utils.py lines 77-83): stores the kwargs, and
raises ValueError when a suffix kwarg is supplied whose value is not
in the allowed list. Modelled as Except: an error value is the raised
exception, an ok value the constructed object (its stored kwargs). -/
def BIDSName.init (values : List (String × KwVal)) : Except String (List (String × KwVal)) :=
  match lookupKw "suffix" values with
  | some v =>
      if v.isAllowedSuffix then .ok values
      else .error ("Invalid suffix " ++ v.render)
  | none => .ok values

/-- One loop body of `BIDSName.build` (utils.py lines 87-96): the
`suffix` key appends its raw value, other keys emit `key-value` for
`str` and `int` values. -/
def bidsNamePart (key : String) (v : KwVal) : Option String :=
  if key == "suffix" then some v.render
  else
    match v with
    | .str s => some (key ++ "-" ++ s)
    | .int n => some (key ++ "-" ++ toString n)

/-- Method `BIDSName.build` (utils.py lines 85-98). -/
def BIDSName.build (values : List (String × KwVal)) : String :=
  "_".intercalate
    (bidsNameKeys.filterMap fun key => (lookupKw key values).bind fun v => bidsNamePart key v)

/-! ## JSON sidecar merger (utils.py lines 100-131)

A sidecar document is a flat key/value dictionary, modelled as an
association list over an arbitrary value type. The filesystem is an
association list from paths to documents; `os.path.exists` is
`(fsLookup …).isSome`. -/

/-- A flat JSON document: keys to values, in insertion order. -/
abbrev Dict (α : Type) := List (String × α)

/-- A filesystem fragment: paths to JSON documents. -/
abbrev FS (α : Type) := List (String × Dict α)

/-- Read the document at a path, if present. -/
def fsLookup {α : Type} (fs : FS α) (p : String) : Option (Dict α) :=
  lookupKw p fs

/-- Write (create or overwrite) the document at a path. -/
def fsWrite {α : Type} (fs : FS α) (p : String) (d : Dict α) : FS α :=
  (p, d) :: fs

/-- The Python double-unpacking dict merge of new then existing data
(utils.py line 125): the result holds the keys of the new document in
order — each overridden by the value from the existing document when
the key collides — followed by the keys only in the existing
document. -/
def mergeDicts {α : Type} (newData existingData : Dict α) : Dict α :=
  (newData.map fun kv =>
    match lookupKw kv.1 existingData with
    | some v => (kv.1, v)
    | none => kv) ++
  existingData.filter fun kv => (lookupKw kv.1 newData).isNone

/-- Function `merge_json_files` (utils.py lines 100-131): load the existing
document at `json_subject` (an empty dict when absent), load the new
document at `json_pet` (raising FileNotFoundError when absent), merge
with existing values winning, and write the result over `json_pet`.
An error value is the raised exception, an ok value the filesystem after the write. -/
def merge_json_files {α : Type} (fs : FS α) (json_pet json_subject : String) :
    Except String (FS α) :=
  let existing_data := (fsLookup fs json_subject).getD []
  match fsLookup fs json_pet with
  | none => .error ("New JSON file not found: " ++ json_pet)
  | some new_data => .ok (fsWrite fs json_pet (mergeDicts new_data existing_data))

/-! ## Path normalization and subject directory (pet2bids.py lines 65-71, 116-118) -/

/-- Fuel-indexed replacement of every occurrence of `pat` by `rep`;
the fuel only bounds recursion depth and `s.length` suffices. -/
def pyReplaceGo (pat rep : List Char) : Nat → List Char → List Char
  | _, [] => []
  | 0, s => s
  | fuel + 1, c :: rest =>
      if pat ≠ [] ∧ pat.isPrefixOf (c :: rest) then
        rep ++ pyReplaceGo pat rep fuel ((c :: rest).drop pat.length)
      else
        c :: pyReplaceGo pat rep fuel rest

/-- The Python string replace method: replace every non-overlapping
occurrence of `pat` by `rep`, left to right. -/
def pyReplace (s pat rep : String) : String :=
  ⟨pyReplaceGo pat.toList rep.toList s.length s.toList⟩

/-- Line 66 of pet2bids.py: the session argument with every occurrence
of the text ses- removed, prefixed by ses- again. -/
def normSession (ses : String) : String :=
  "ses-" ++ pyReplace ses "ses-" ""

/-- Line 67 of pet2bids.py: the subject argument with every occurrence
of the text sub- removed, prefixed by sub- again. -/
def normSubject (sub : String) : String :=
  "sub-" ++ pyReplace sub "sub-" ""

/-- Line 71 of pet2bids.py: the subject session directory is bids_dir,
a slash, sub- and the normalized subject, a slash, ses- and the
normalized session (os.path.join of a single argument is that
argument). -/
def subject_dir (bids_dir sub ses : String) : String :=
  bids_dir ++ "/sub-" ++ normSubject sub ++ "/ses-" ++ normSession ses

/-- Lines 116-118 of pet2bids.py: the three os.makedirs calls — the
session directory and its `anat` and `pet` subdirectories. -/
def sessionDirs (bids_dir sub ses : String) : List String :=
  [subject_dir bids_dir sub ses,
   subject_dir bids_dir sub ses ++ "/anat",
   subject_dir bids_dir sub ses ++ "/pet"]

/-! ## Input validation (pet2bids.py lines 82-96, 116-118) -/

/-- The filesystem facts read by the validation block of the conversion script. -/
structure CheckEnv : Type where
  force : Bool
  /-- Whether subject_dir exists before the optional force removal. -/
  subjectDirExists : Bool
  /-- Whether the T1 sidecar JSON of the subject exists. -/
  t1JsonExists : Bool
  /-- Whether the raw PET input directory exists. -/
  petDirIsDir : Bool
  /-- Whether the BIDS output root directory exists. -/
  bidsDirIsDir : Bool
deriving DecidableEq

/-- How the validation block ends: an exit with a status code or fall-through. -/
inductive Outcome : Type
  | exited (code : Nat)
  | proceeded
deriving DecidableEq

/-- Observable effects of the validation block. -/
structure RunResult : Type where
  warnings : List String
  errors : List String
  outcome : Outcome
  /-- Directories created by the os.makedirs calls that were reached. -/
  createdDirs : List String
deriving DecidableEq

/-- Lines 82-96 then 116-118 of pet2bids.py in program order: the optional
`-force` removal of `subject_dir`; a warning when the T1 sidecar is
missing; exit with status 1 when the PET input directory is missing, when
the BIDS root is missing (a plain print, not an error call), or when
subject_dir still exists; otherwise the three os.makedirs calls run. -/
def runValidation (env : CheckEnv) (bids_dir sub ses : String) : RunResult :=
  let subjDirAfterForce := env.subjectDirExists && !env.force
  let warns := if env.t1JsonExists then [] else ["does NOT have a T1"]
  if !env.petDirIsDir then
    ⟨warns, ["Input directory does not exist"], .exited 1, []⟩
  else if !env.bidsDirIsDir then
    ⟨warns, [], .exited 1, []⟩
  else if subjDirAfterForce then
    ⟨warns, ["Output directory already exists"], .exited 1, []⟩
  else
    ⟨warns, [], .proceeded, sessionDirs bids_dir sub ses⟩

/-! ## Processing-log bookkeeping (pet2bids.py lines 247-253, 307-347)

The `participants_bic2bids.tsv` table. Its header (line 251) is
`sub, ses, date, N.anat, N.pet, source, user, processing.time`; the
`new_row` dict (lines 309-318) supplies `sub, ses, date, N.anat, N.dwi,
user, processing.time` — the pet count goes under the key `N.dwi`, which
becomes an extra column on the first append, while the header columns
`N.pet` and `source` are never given a value. A row is modelled as one
field per column the table can hold, `none` standing for a missing
(NaN) cell. -/

/-- One row of the processing-log table participants_bic2bids.tsv. -/
structure LogRow : Type where
  sub : String
  ses : String
  date : Option String
  nAnat : Option Nat
  nPet : Option Nat
  source : Option String
  user : Option String
  processingTime : Option String
  nDwi : Option Nat
deriving DecidableEq

/-- The new_row dict built at pet2bids.py lines 309-318: `N.anat` and
`N.dwi` hold the anat and pet file counts; `N.pet` and `source` are not
among its keys (so align to `none`); the duplicated `"user"` key keeps
the second value. -/
def mkNewRow (sub ses date : String) (anat pet : Nat) (user : Option String)
    (time : String) : LogRow :=
  { sub := sub, ses := ses, date := some date, nAnat := some anat,
    nPet := none, source := none, user := user,
    processingTime := some time, nDwi := some pet }

/-- Row positions matching a key, counting from `start`. -/
def findRowIdxFrom (start : Nat) (sub ses : String) : List LogRow → List Nat
  | [] => []
  | r :: rest =>
      if r.sub == sub && r.ses == ses then
        start :: findRowIdxFrom (start + 1) sub ses rest
      else
        findRowIdxFrom (start + 1) sub ses rest

/-- Function `find_existing_row_index` (pet2bids.py lines 321-333): the
index of the rows whose sub and ses columns both match. -/
def find_existing_row_index (df : List LogRow) (sub ses : String) : List Nat :=
  findRowIdxFrom 0 sub ses df

/-- Lines 334-347 of pet2bids.py: when `existing_row_index` is non-empty,
the pandas loc assignment at those indices overwrites every
matching row with the new row aligned to the columns of the table (`mkNewRow`
already carries `none` in the columns `new_row` does not supply);
otherwise the new row is appended. -/
def updateLog (df : List LogRow) (row : LogRow) : List LogRow :=
  if (find_existing_row_index df row.sub row.ses).isEmpty then
    df ++ [row]
  else
    df.map fun r => if r.sub == row.sub && r.ses == row.ses then row else r

/-! ## compute_average_4D_image (utils.py lines 160-192) -/

/-- A loaded NIfTI image, abstracted to its shape (the only property the
control flow of `compute_average_4D_image` reads) and an opaque payload
distinguishing images. -/
structure NImg : Type where
  shape : List Nat
  payload : Nat
deriving DecidableEq

/-- The nilearn mean_img call on a 4D image: an external collaborator,
modelled as producing the 3D image with the fourth dimension averaged
out. -/
def meanImg (img : NImg) : NImg :=
  { shape := img.shape.take 3, payload := img.payload }

/-- The pet_trc argument: a single path or a list of paths. -/
inductive PetInput : Type
  | single (p : String)
  | multiple (ps : List String)

/-- Lines 172-174 of utils.py: a single string path is wrapped in a list. -/
def PetInput.paths : PetInput → List String
  | .single p => [p]
  | .multiple ps => ps

/-- What `compute_average_4D_image` returns: a single 3D image or a
list of them. -/
inductive MeanResult : Type
  | single (img : NImg)
  | list (imgs : List NImg)
deriving DecidableEq

/-- Function `compute_average_4D_image` (utils.py lines 160-192): wrap a single
path in a list, average each image whose shape is 4-dimensional and
skip the rest, then return the list when it holds more than one image
and otherwise its element at position zero. That final indexing of an
empty accumulator raises IndexError, modelled
as `none`; `load` stands for `nib.load`. -/
def compute_average_4D_image (load : String → NImg) (pet_trc : PetInput) :
    Option MeanResult :=
  let pet_mean_images :=
    pet_trc.paths.filterMap fun p =>
      if (load p).shape.length == 4 then some (meanImg (load p)) else none
  if pet_mean_images.length > 1 then some (.list pet_mean_images)
  else pet_mean_images.head?.map .single

/-! ## Helper lemmas -/

/-- Lookup in an association list with duplicate-free keys is invariant
under permutation of the entries (a Python dict is unordered). -/
theorem lookupKw_perm {α : Type} {l₁ l₂ : List (String × α)} (h : l₁.Perm l₂) :
    (l₁.map Prod.fst).Nodup → ∀ k, lookupKw k l₁ = lookupKw k l₂ := by
  induction h with
  | nil => intro _ _; rfl
  | cons x h ih =>
      intro hnd k
      obtain ⟨k', v⟩ := x
      simp only [List.map_cons, List.nodup_cons] at hnd
      by_cases hk : k = k'
      · simp [lookupKw, hk]
      · simp only [lookupKw, beq_iff_eq, hk, if_false]
        exact ih hnd.2 k
  | swap x y l =>
      intro hnd k
      obtain ⟨kx, vx⟩ := x
      obtain ⟨ky, vy⟩ := y
      simp only [List.map_cons, List.nodup_cons, List.mem_cons] at hnd
      have hne : ky ≠ kx := fun he => hnd.1 (Or.inl he)
      by_cases h1 : k = ky <;> by_cases h2 : k = kx
      · exact absurd (h1 ▸ h2) hne
      · simp [lookupKw, beq_iff_eq, h1, h2, hne]
      · simp only [lookupKw, beq_iff_eq, h1, h2, if_true, if_false]
        rw [if_neg fun he => hne (Eq.symm he)]
      · simp [lookupKw, beq_iff_eq, h1, h2]
  | trans h₁ h₂ ih₁ ih₂ =>
      intro hnd k
      exact (ih₁ hnd k).trans (ih₂ ((h₁.map Prod.fst).nodup hnd) k)

/-- Lookup distributes over append, preferring the left list. -/
theorem lookupKw_append {α : Type} (k : String) (l₁ l₂ : List (String × α)) :
    lookupKw k (l₁ ++ l₂) = (lookupKw k l₁).or (lookupKw k l₂) := by
  induction l₁ with
  | nil => simp [lookupKw]
  | cons x rest ih =>
      obtain ⟨k', v⟩ := x
      by_cases hk : k = k' <;> simp [lookupKw, beq_iff_eq, hk, ih]

/-- Lookup in the override map of `mergeDicts`: the first value found
for `k` in the new document, overridden by the existing document. -/
theorem lookupKw_override {α : Type} (k : String) (nd ed : List (String × α)) :
    lookupKw k (nd.map fun kv =>
        match lookupKw kv.1 ed with
        | some v => (kv.1, v)
        | none => kv) =
      (lookupKw k nd).map fun v => (lookupKw k ed).getD v := by
  induction nd with
  | nil => simp [lookupKw]
  | cons x rest ih =>
      obtain ⟨k', v'⟩ := x
      by_cases hk : k = k'
      · subst hk
        cases he : lookupKw k ed <;> simp [lookupKw, he]
      · cases he : lookupKw k' ed <;>
          simp [lookupKw, beq_iff_eq, hk, he, ih]

/-- Lookup of a key all of whose entries survive a key-based filter. -/
theorem lookupKw_filter_of_key {α : Type} (k : String) (l : List (String × α))
    (p : String × α → Bool) (hall : ∀ v, p (k, v) = true) :
    lookupKw k (l.filter p) = lookupKw k l := by
  induction l with
  | nil => rfl
  | cons x rest ih =>
      obtain ⟨k', v'⟩ := x
      by_cases hk : k = k'
      · subst hk
        simp [List.filter_cons, hall v', lookupKw]
      · cases hp : p (k', v') <;>
          simp [List.filter_cons, hp, lookupKw, beq_iff_eq, hk, ih]

/-- Lookup in a merged document: the existing value when present, the
new value otherwise. -/
theorem lookupKw_mergeDicts {α : Type} (k : String) (nd ed : Dict α) :
    lookupKw k (mergeDicts nd ed) = (lookupKw k ed).or (lookupKw k nd) := by
  unfold mergeDicts
  rw [lookupKw_append, lookupKw_override]
  cases hn : lookupKw k nd with
  | some v =>
      cases he : lookupKw k ed <;> simp [he]
  | none =>
      rw [lookupKw_filter_of_key k ed _ (fun v => by simp [hn])]
      cases he : lookupKw k ed <;> simp [he]

/-- Merging with an empty existing document is the identity. -/
theorem mergeDicts_nil {α : Type} (nd : Dict α) : mergeDicts nd [] = nd := by
  unfold mergeDicts
  induction nd with
  | nil => rfl
  | cons x rest ih => simp only [lookupKw, List.map_cons, List.filter_nil,
      List.append_nil] at ih ⊢; simp [ih]

/-! ## Claims about the filename builders -/

/-- C1: for a mapping of recognized tags together with a terminal suffix
token, `BIDSderivativeName.build` is claimed to end in the suffix token;
on the code it does not. With tags `sub = 01` and `suffix = pet` the
built string is `sub-01`: the suffix is silently dropped, because the
key `suffix` is missing from `BIDSderivativeName.keys`, so the
suffix-appending branch of the loop is unreachable. -/
theorem derivativeName_build_drops_suffix :
    BIDSderivativeName.build [("sub", .str "01"), ("suffix", .str "pet")] = "sub-01" := by
  decide

/-- C4: constructing a `BIDSName` whose supplied suffix value lies
outside `ALLOWED_SUFFIXES` raises an invalid-argument failure and
produces no object; a suffix inside the set raises nothing. -/
theorem bidsName_init_validates_suffix (values : List (String × KwVal)) (s : String)
    (hs : lookupKw "suffix" values = some (.str s)) :
    (s ∉ BIDSName.ALLOWED_SUFFIXES → ∃ e, BIDSName.init values = .error e) ∧
    (s ∈ BIDSName.ALLOWED_SUFFIXES → BIDSName.init values = .ok values) := by
  constructor
  · intro hmem
    have hb : KwVal.isAllowedSuffix (.str s) = false := by
      simp [KwVal.isAllowedSuffix, hmem]
    exact ⟨"Invalid suffix " ++ (KwVal.str s).render, by simp [BIDSName.init, hs, hb]⟩
  · intro hmem
    have hb : KwVal.isAllowedSuffix (.str s) = true := by
      simp [KwVal.isAllowedSuffix, hmem]
    simp [BIDSName.init, hs, hb]

/-- Witness for C4 at concrete inputs: suffix `qT1` is rejected and
suffix `T1w` is accepted. -/
theorem bidsName_init_validates_suffix_witness :
    (lookupKw "suffix" [("suffix", KwVal.str "qT1")] = some (.str "qT1") ∧
      (("qT1" : String) ∉ BIDSName.ALLOWED_SUFFIXES →
        ∃ e, BIDSName.init [("suffix", KwVal.str "qT1")] = .error e) ∧
      (("qT1" : String) ∈ BIDSName.ALLOWED_SUFFIXES →
        BIDSName.init [("suffix", KwVal.str "qT1")] = .ok [("suffix", KwVal.str "qT1")])) ∧
    (lookupKw "suffix" [("suffix", KwVal.str "T1w")] = some (.str "T1w") ∧
      (("T1w" : String) ∉ BIDSName.ALLOWED_SUFFIXES →
        ∃ e, BIDSName.init [("suffix", KwVal.str "T1w")] = .error e) ∧
      (("T1w" : String) ∈ BIDSName.ALLOWED_SUFFIXES →
        BIDSName.init [("suffix", KwVal.str "T1w")] = .ok [("suffix", KwVal.str "T1w")])) :=
  ⟨⟨by decide, bidsName_init_validates_suffix _ _ (by decide)⟩,
   ⟨by decide, bidsName_init_validates_suffix _ _ (by decide)⟩⟩

/-- C5: the tokens of a built PET filename appear in the fixed canonical
order regardless of the order the tags were supplied (permuting a
duplicate-free kwargs mapping leaves the output unchanged), and the
tags sub 01, ses 01, trc mk6240, rec acdyn with the fixed terminal
token pet yield exactly `sub-01_ses-01_trc-mk6240_rec-acdyn_pet`. -/
theorem petName_build_canonical_order (l₁ l₂ : List (String × String))
    (hperm : l₁.Perm l₂) (hnd : (l₁.map Prod.fst).Nodup) :
    BIDSpetName.build l₁ = BIDSpetName.build l₂ ∧
    BIDSpetName.build [("sub", "01"), ("ses", "01"), ("trc", "mk6240"), ("rec", "acdyn")] =
      "sub-01_ses-01_trc-mk6240_rec-acdyn_pet" := by
  constructor
  · unfold BIDSpetName.build
    rw [List.filterMap_congr fun k _ => by rw [lookupKw_perm hperm hnd k]]
  · decide

/-- Witness for C5: the same four tags supplied in a scrambled order
build the same string, which is the one the claim names. -/
theorem petName_build_canonical_order_witness :
    ([("trc", "mk6240"), ("rec", "acdyn"), ("sub", "01"), ("ses", "01")] :
        List (String × String)).Perm
      [("sub", "01"), ("ses", "01"), ("trc", "mk6240"), ("rec", "acdyn")] ∧
    (([("trc", "mk6240"), ("rec", "acdyn"), ("sub", "01"), ("ses", "01")] :
        List (String × String)).map Prod.fst).Nodup ∧
    (BIDSpetName.build [("trc", "mk6240"), ("rec", "acdyn"), ("sub", "01"), ("ses", "01")] =
      BIDSpetName.build [("sub", "01"), ("ses", "01"), ("trc", "mk6240"), ("rec", "acdyn")] ∧
    BIDSpetName.build [("sub", "01"), ("ses", "01"), ("trc", "mk6240"), ("rec", "acdyn")] =
      "sub-01_ses-01_trc-mk6240_rec-acdyn_pet") :=
  ⟨by decide, by decide, petName_build_canonical_order _ _ (by decide) (by decide)⟩

/-- C6: the conversion stage is claimed to root its output tree at
sub-id slash ses-id with each prefix exactly once; on the code the
normalized subject and session already carry their prefixes and line 71
prepends them again, so subject 01, session 01 under root /bids yields
the doubled tree sub-sub-01/ses-ses-01 (with the anat and pet
subdirectories). -/
theorem sessionDirs_double_prefixed :
    sessionDirs "/bids" "01" "01" =
      ["/bids/sub-sub-01/ses-ses-01",
       "/bids/sub-sub-01/ses-ses-01/anat",
       "/bids/sub-sub-01/ses-ses-01/pet"] := by
  decide

/-! ## Claims about the JSON sidecar merger -/

/-- C3: when the existing document maps K to A and the new document maps
K to B, the merge succeeds, writes the merged document over the path of
the new document, and the merged document maps K to A — the existing
value wins on every key collision. -/
theorem merge_json_existing_wins {α : Type} (fs : FS α) (json_pet json_subject K : String)
    (nd ed : Dict α) (A B : α)
    (hn : fsLookup fs json_pet = some nd) (he : fsLookup fs json_subject = some ed)
    (hKe : lookupKw K ed = some A) (_hKn : lookupKw K nd = some B) :
    merge_json_files fs json_pet json_subject = .ok (fsWrite fs json_pet (mergeDicts nd ed)) ∧
    fsLookup (fsWrite fs json_pet (mergeDicts nd ed)) json_pet = some (mergeDicts nd ed) ∧
    lookupKw K (mergeDicts nd ed) = some A := by
  refine ⟨?_, ?_, ?_⟩
  · unfold merge_json_files
    rw [hn, he]
    rfl
  · simp [fsLookup, fsWrite, lookupKw]
  · rw [lookupKw_mergeDicts, hKe]
    rfl

/-- Witness for C3: a new sidecar with K mapped to B merged against an
existing sidecar with K mapped to A yields K mapped to A at the path of
the new sidecar. -/
theorem merge_json_existing_wins_witness :
    fsLookup (α := String)
        [("pet.json", [("K", "B"), ("Units", "Bq")]), ("subject.json", [("K", "A")])]
        "pet.json" = some [("K", "B"), ("Units", "Bq")] ∧
    fsLookup (α := String)
        [("pet.json", [("K", "B"), ("Units", "Bq")]), ("subject.json", [("K", "A")])]
        "subject.json" = some [("K", "A")] ∧
    lookupKw (α := String) "K" [("K", "A")] = some "A" ∧
    lookupKw (α := String) "K" [("K", "B"), ("Units", "Bq")] = some "B" ∧
    (merge_json_files (α := String)
        [("pet.json", [("K", "B"), ("Units", "Bq")]), ("subject.json", [("K", "A")])]
        "pet.json" "subject.json" =
      .ok (fsWrite [("pet.json", [("K", "B"), ("Units", "Bq")]), ("subject.json", [("K", "A")])]
        "pet.json" (mergeDicts [("K", "B"), ("Units", "Bq")] [("K", "A")])) ∧
    fsLookup (fsWrite [("pet.json", [("K", "B"), ("Units", "Bq")]), ("subject.json", [("K", "A")])]
        "pet.json" (mergeDicts [("K", "B"), ("Units", "Bq")] [("K", "A")])) "pet.json" =
      some (mergeDicts [("K", "B"), ("Units", "Bq")] [("K", "A")]) ∧
    lookupKw "K" (mergeDicts [("K", "B"), ("Units", "Bq")] [("K", "A")]) = some "A") :=
  ⟨by decide, by decide, by decide, by decide,
   merge_json_existing_wins
     [("pet.json", [("K", "B"), ("Units", "Bq")]), ("subject.json", [("K", "A")])]
     "pet.json" "subject.json" "K" [("K", "B"), ("Units", "Bq")] [("K", "A")] "A" "B"
     (by decide) (by decide) (by decide) (by decide)⟩

/-- C7: the sidecar merge raises if and only if the new document is
absent at its path; in particular an absent existing document is no
error as long as the new document is present. -/
theorem merge_json_fails_iff_new_absent {α : Type} (fs : FS α) (json_pet json_subject : String) :
    (∃ e, merge_json_files fs json_pet json_subject = .error e) ↔
      fsLookup fs json_pet = none := by
  unfold merge_json_files
  cases h : fsLookup fs json_pet <;> simp [h]

/-- Witness for C7 at a concrete filesystem: with the new document
present and the existing document absent the merge does not raise, and
with the new document absent it raises. -/
theorem merge_json_fails_iff_new_absent_witness :
    ((∃ e, merge_json_files (α := String) [("pet.json", [("K", "B")])]
        "pet.json" "subject.json" = .error e) ↔
      fsLookup (α := String) [("pet.json", [("K", "B")])] "pet.json" = none) ∧
    ((∃ e, merge_json_files (α := String) [("pet.json", [("K", "B")])]
        "missing.json" "subject.json" = .error e) ↔
      fsLookup (α := String) [("pet.json", [("K", "B")])] "missing.json" = none) :=
  ⟨merge_json_fails_iff_new_absent _ _ _, merge_json_fails_iff_new_absent _ _ _⟩

/-- C8: merging when no existing document is present succeeds and writes
the new document unchanged over its own path — merging with the empty
document is an identity. -/
theorem merge_json_absent_existing_identity {α : Type} (fs : FS α)
    (json_pet json_subject : String) (nd : Dict α)
    (hEx : fsLookup fs json_subject = none) (hNew : fsLookup fs json_pet = some nd) :
    merge_json_files fs json_pet json_subject = .ok (fsWrite fs json_pet nd) ∧
    fsLookup (fsWrite fs json_pet nd) json_pet = some nd := by
  constructor
  · unfold merge_json_files
    rw [hNew, hEx]
    simp [mergeDicts_nil]
  · simp [fsLookup, fsWrite, lookupKw]

/-- Witness for C8: with no document at the existing path, the document
written back over the new path is the new document itself. -/
theorem merge_json_absent_existing_identity_witness :
    fsLookup (α := String) [("pet.json", [("K", "B"), ("Units", "Bq")])] "subject.json" = none ∧
    fsLookup (α := String) [("pet.json", [("K", "B"), ("Units", "Bq")])] "pet.json" =
      some [("K", "B"), ("Units", "Bq")] ∧
    (merge_json_files (α := String) [("pet.json", [("K", "B"), ("Units", "Bq")])]
        "pet.json" "subject.json" =
      .ok (fsWrite [("pet.json", [("K", "B"), ("Units", "Bq")])] "pet.json"
        [("K", "B"), ("Units", "Bq")]) ∧
    fsLookup (fsWrite [("pet.json", [("K", "B"), ("Units", "Bq")])] "pet.json"
        [("K", "B"), ("Units", "Bq")]) "pet.json" = some [("K", "B"), ("Units", "Bq")]) :=
  ⟨by decide, by decide,
   merge_json_absent_existing_identity _ _ _ _ (by decide) (by decide)⟩

/-! ## Claim about the processing-log bookkeeping -/

/-- The index list of matching rows is empty exactly when no row
matches the key. -/
theorem findRowIdxFrom_isEmpty (sub ses : String) (df : List LogRow) : ∀ start : Nat,
    (findRowIdxFrom start sub ses df).isEmpty =
      !(df.any fun r => r.sub == sub && r.ses == ses) := by
  induction df with
  | nil => intro start; rfl
  | cons r rest ih =>
      intro start
      cases h : (r.sub == sub && r.ses == ses) <;>
        simp [findRowIdxFrom, h, ih (start + 1)]

/-- Replacing every element satisfying `p` by `b` does not change the
elements not satisfying `p`. -/
theorem filter_not_of_replace {α : Type} (l : List α) (p : α → Bool) (b : α)
    (hb : p b = true) :
    ((l.map fun a => if p a then b else a).filter fun a => !(p a)) =
      l.filter fun a => !(p a) := by
  induction l with
  | nil => rfl
  | cons a rest ih =>
      cases h : p a <;> simp [h, hb, ih]

/-- Replacing every element satisfying `p` by `b` in a list in which no
element satisfies `p` leaves no element satisfying `p`. -/
theorem filter_replace_of_nil {α : Type} (l : List α) (p : α → Bool) (b : α)
    (h : ∀ a ∈ l, p a = false) :
    ((l.map fun a => if p a then b else a).filter p) = [] := by
  induction l with
  | nil => rfl
  | cons a rest ih =>
      have ha := h a (by simp)
      simp [ha, ih fun x hx => h x (by simp [hx])]

/-- Replacing every element satisfying `p` by `b` in a list with exactly
one element satisfying `p` leaves exactly the element `b`. -/
theorem filter_replace_of_singleton {α : Type} (l : List α) (p : α → Bool) (b : α)
    (hb : p b = true) (h : (l.filter p).length = 1) :
    ((l.map fun a => if p a then b else a).filter p) = [b] := by
  induction l with
  | nil => simp at h
  | cons a rest ih =>
      cases ha : p a
      · rw [List.filter_cons, if_neg (by simp [ha])] at h
        simp [ha, ih h]
      · rw [List.filter_cons, if_pos ha] at h
        simp only [List.length_cons] at h
        have h0 : (rest.filter p).length = 0 := by omega
        have hnil : rest.filter p = [] := List.length_eq_zero.mp h0
        have hforall : ∀ x ∈ rest, p x = false := by
          intro x hx
          by_contra hpx
          have hmem : x ∈ rest.filter p :=
            List.mem_filter.mpr ⟨hx, by revert hpx; cases p x <;> simp⟩
          rw [hnil] at hmem
          exact absurd hmem (List.not_mem_nil x)
        simp [ha, hb, filter_replace_of_nil rest p b hforall]

/-- C2: updating the processing-log table for a (subject, session) key
it already holds exactly one row for leaves exactly one row for that
key, every one of whose fields is the freshly supplied row (so the new
processing time and output-file counts stand and no old field value
survives), leaves all other rows unchanged, and appends nothing. -/
theorem updateLog_last_write_wins (df : List LogRow) (row : LogRow)
    (h : (df.filter fun r => r.sub == row.sub && r.ses == row.ses).length = 1) :
    (updateLog df row).filter (fun r => r.sub == row.sub && r.ses == row.ses) = [row] ∧
    (updateLog df row).filter (fun r => !(r.sub == row.sub && r.ses == row.ses)) =
      df.filter (fun r => !(r.sub == row.sub && r.ses == row.ses)) ∧
    (updateLog df row).length = df.length := by
  have hb : (row.sub == row.sub && row.ses == row.ses) = true := by simp
  have hne : df.filter (fun r => r.sub == row.sub && r.ses == row.ses) ≠ [] := by
    intro hnil
    rw [hnil] at h
    simp at h
  have hany : (df.any fun r => r.sub == row.sub && r.ses == row.ses) = true := by
    obtain ⟨x, hx⟩ := List.exists_mem_of_ne_nil _ hne
    have hx' := List.mem_filter.mp hx
    exact List.any_eq_true.mpr ⟨x, hx'.1, hx'.2⟩
  have hupd : updateLog df row =
      df.map fun r => if r.sub == row.sub && r.ses == row.ses then row else r := by
    unfold updateLog find_existing_row_index
    rw [findRowIdxFrom_isEmpty, hany]
    rfl
  rw [hupd]
  exact ⟨filter_replace_of_singleton df _ row hb h,
    filter_not_of_replace df _ row hb, by simp⟩

/-- Witness for C2: a table holding the row of a first invocation for
subject sub-01, session ses-01, updated with the row of a second
invocation for the same key carrying a different date, different
counts and a different processing time, keeps exactly the second row. -/
theorem updateLog_last_write_wins_witness :
    (([mkNewRow "sub-01" "ses-01" "10.11.2025" 1 2 (some "usr") "5.012"].filter
        fun r => r.sub == (mkNewRow "sub-01" "ses-01" "10.12.2025" 3 4 (some "usr") "7.500").sub &&
          r.ses == (mkNewRow "sub-01" "ses-01" "10.12.2025" 3 4 (some "usr") "7.500").ses).length = 1) ∧
    ((updateLog [mkNewRow "sub-01" "ses-01" "10.11.2025" 1 2 (some "usr") "5.012"]
        (mkNewRow "sub-01" "ses-01" "10.12.2025" 3 4 (some "usr") "7.500")).filter
          (fun r => r.sub == (mkNewRow "sub-01" "ses-01" "10.12.2025" 3 4 (some "usr") "7.500").sub &&
            r.ses == (mkNewRow "sub-01" "ses-01" "10.12.2025" 3 4 (some "usr") "7.500").ses) =
        [mkNewRow "sub-01" "ses-01" "10.12.2025" 3 4 (some "usr") "7.500"] ∧
      (updateLog [mkNewRow "sub-01" "ses-01" "10.11.2025" 1 2 (some "usr") "5.012"]
        (mkNewRow "sub-01" "ses-01" "10.12.2025" 3 4 (some "usr") "7.500")).filter
          (fun r => !(r.sub == (mkNewRow "sub-01" "ses-01" "10.12.2025" 3 4 (some "usr") "7.500").sub &&
            r.ses == (mkNewRow "sub-01" "ses-01" "10.12.2025" 3 4 (some "usr") "7.500").ses)) =
        [mkNewRow "sub-01" "ses-01" "10.11.2025" 1 2 (some "usr") "5.012"].filter
          (fun r => !(r.sub == (mkNewRow "sub-01" "ses-01" "10.12.2025" 3 4 (some "usr") "7.500").sub &&
            r.ses == (mkNewRow "sub-01" "ses-01" "10.12.2025" 3 4 (some "usr") "7.500").ses)) ∧
      (updateLog [mkNewRow "sub-01" "ses-01" "10.11.2025" 1 2 (some "usr") "5.012"]
        (mkNewRow "sub-01" "ses-01" "10.12.2025" 3 4 (some "usr") "7.500")).length =
        [mkNewRow "sub-01" "ses-01" "10.11.2025" 1 2 (some "usr") "5.012"].length) :=
  ⟨by decide, updateLog_last_write_wins _ _ (by decide)⟩

/-! ## Claim about the validation block -/

/-- C9: a missing T1 sidecar alone yields a warning and the run
proceeds to create the output tree, whereas a missing raw PET input
directory is fatal — the block reports an error and exits with status 1
before any output directory is created. -/
theorem validation_t1_warns_petdir_fatal (e₁ e₂ : CheckEnv) (bids_dir sub ses : String)
    (h₁ : e₁.petDirIsDir = false)
    (h₂t : e₂.t1JsonExists = false) (h₂p : e₂.petDirIsDir = true)
    (h₂b : e₂.bidsDirIsDir = true) (h₂s : (e₂.subjectDirExists && !e₂.force) = false) :
    ((runValidation e₁ bids_dir sub ses).outcome = .exited 1 ∧
      (runValidation e₁ bids_dir sub ses).errors ≠ [] ∧
      (runValidation e₁ bids_dir sub ses).createdDirs = []) ∧
    ((runValidation e₂ bids_dir sub ses).outcome = .proceeded ∧
      (runValidation e₂ bids_dir sub ses).warnings ≠ [] ∧
      (runValidation e₂ bids_dir sub ses).errors = [] ∧
      (runValidation e₂ bids_dir sub ses).createdDirs = sessionDirs bids_dir sub ses) := by
  constructor
  · simp [runValidation, h₁]
  · simp [runValidation, h₂t, h₂p, h₂b, h₂s]

/-- Witness for C9 at concrete environments: a run with every input in
place except the PET directory exits, and a run missing only the T1
sidecar proceeds with a warning. -/
theorem validation_t1_warns_petdir_fatal_witness :
    (CheckEnv.petDirIsDir ⟨false, false, true, false, true⟩ = false) ∧
    (CheckEnv.t1JsonExists ⟨false, false, false, true, true⟩ = false) ∧
    (CheckEnv.petDirIsDir ⟨false, false, false, true, true⟩ = true) ∧
    (CheckEnv.bidsDirIsDir ⟨false, false, false, true, true⟩ = true) ∧
    ((CheckEnv.subjectDirExists ⟨false, false, false, true, true⟩ &&
      !(CheckEnv.force ⟨false, false, false, true, true⟩)) = false) ∧
    (((runValidation ⟨false, false, true, false, true⟩ "/bids" "01" "01").outcome = .exited 1 ∧
      (runValidation ⟨false, false, true, false, true⟩ "/bids" "01" "01").errors ≠ [] ∧
      (runValidation ⟨false, false, true, false, true⟩ "/bids" "01" "01").createdDirs = []) ∧
    ((runValidation ⟨false, false, false, true, true⟩ "/bids" "01" "01").outcome = .proceeded ∧
      (runValidation ⟨false, false, false, true, true⟩ "/bids" "01" "01").warnings ≠ [] ∧
      (runValidation ⟨false, false, false, true, true⟩ "/bids" "01" "01").errors = [] ∧
      (runValidation ⟨false, false, false, true, true⟩ "/bids" "01" "01").createdDirs =
        sessionDirs "/bids" "01" "01")) :=
  ⟨by decide, by decide, by decide, by decide, by decide,
   validation_t1_warns_petdir_fatal _ _ _ _ _
     (by decide) (by decide) (by decide) (by decide) (by decide)⟩

/-! ## Claim about compute_average_4D_image -/

/-- C10: the averaging function returns nothing — the final indexing of
the empty accumulated list raises — exactly when no referenced image is
4-dimensional; returning normally requires at least one 4D input
image. -/
theorem compute_average_requires_4D (load : String → NImg) (pet_trc : PetInput) :
    compute_average_4D_image load pet_trc = none ↔
      ∀ p ∈ pet_trc.paths, (load p).shape.length ≠ 4 := by
  unfold compute_average_4D_image
  have hmeans :
      (pet_trc.paths.filterMap fun p =>
        if (load p).shape.length == 4 then some (meanImg (load p)) else none) = [] ↔
      ∀ p ∈ pet_trc.paths, (load p).shape.length ≠ 4 := by
    rw [List.filterMap_eq_nil_iff]
    refine forall_congr' fun p => forall_congr' fun _ => ?_
    by_cases h : (load p).shape.length = 4 <;> simp [h]
  by_cases hlen :
      (pet_trc.paths.filterMap fun p =>
        if (load p).shape.length == 4 then some (meanImg (load p)) else none).length > 1
  · simp only [hlen, if_true]
    constructor
    · intro hc
      exact absurd hc (by simp)
    · intro hall
      rw [hmeans.mpr hall] at hlen
      simp at hlen
  · simp only [hlen, if_false]
    rw [← hmeans]
    cases hm :
        (pet_trc.paths.filterMap fun p =>
          if (load p).shape.length == 4 then some (meanImg (load p)) else none) <;>
      simp [hm]

end Petpipe
